import Mathlib

/-!
# Verification of the libopenapi rolodex local file system

A shallow embedding of the `index` package's local-filesystem layer
(`LocalFS`, `LocalFile`, `localRolodexFile`, `NewLocalFSWithConfig`) and of
the path manipulation it performs through Go's `path/filepath` (Unix rules).

External collaborators (the YAML parser behind `yaml.Unmarshal` /
`datamodel.ExtractSpecInfoWithDocumentCheck`, and the document indexer behind
`NewSpecIndexWithConfig`) are modelled through the contracts the specification
assigns them: a parse oracle deciding which byte contents parse successfully,
and an allocator world that hands out fresh object identities so that
reference identity ("the same object, not a rebuilt copy") is observable.
-/

namespace Rolodex

/-! ## Go `path/filepath` (Unix) path manipulation

Implemented over `List Char` with structural recursion only, so that every
path computation reduces inside the kernel.  `goClean`, `goJoin`, `goAbs`,
`goBase`, `goExt`, `goIsAbs` embed `filepath.Clean`, `filepath.Join`,
`filepath.Abs`, `filepath.Base`, `filepath.Ext`, `filepath.IsAbs`. -/

/-- Split a character list on `/`, keeping empty segments (as Go's
`strings.Split` would). -/
def splitSegs : List Char → List (List Char)
  | [] => [[]]
  | c :: rest =>
    match splitSegs rest with
    | s :: ss => if c = '/' then [] :: s :: ss else (c :: s) :: ss
    | [] => [[c]]

/-- The core of `filepath.Clean`: process `.`-free, nonempty segments,
resolving `..` against the stack of already-kept segments.  On an absolute
path a `..` at the root is dropped; on a relative path it is kept. -/
def cleanSegsAux (isAbs : Bool) : List (List Char) → List (List Char) → List (List Char)
  | acc, [] => acc.reverse
  | acc, seg :: rest =>
    if seg = ['.', '.'] then
      match acc with
      | [] => cleanSegsAux isAbs (if isAbs then [] else [['.', '.']]) rest
      | top :: tl =>
        if top = ['.', '.'] then cleanSegsAux isAbs (seg :: top :: tl) rest
        else cleanSegsAux isAbs tl rest
    else cleanSegsAux isAbs (seg :: acc) rest

/-- Interleave `/` between segments. -/
def joinChars : List (List Char) → List Char
  | [] => []
  | [s] => s
  | s :: rest => s ++ '/' :: joinChars rest

/-- Whether the first character of a string is `c` (used for
`filepath.IsAbs` with `/` and for `strings.HasPrefix(p, ".")`). -/
def headIs (c : Char) (s : String) : Bool :=
  match s.data with
  | [] => false
  | x :: _ => x = c

/-- `filepath.Clean` on Unix: drop empty and `.` segments, resolve `..`,
rebuild; an emptied relative path becomes `.`, an emptied absolute path
becomes `/`. -/
def goClean (s : String) : String :=
  let isAbs := headIs '/' s
  let raw := (splitSegs s.data).filter (fun seg => !(seg == []) && !(seg == ['.']))
  let segs := cleanSegsAux isAbs [] raw
  if isAbs then String.mk ('/' :: joinChars segs)
  else if segs = [] then "." else String.mk (joinChars segs)

/-- `filepath.Join` restricted to two components: empty components are
dropped, the rest are joined with `/` and cleaned; all-empty yields `""`. -/
def goJoin (a b : String) : String :=
  match a.data, b.data with
  | [], [] => ""
  | [], _ => goClean b
  | _, [] => goClean a
  | _, _ => goClean (String.mk (a.data ++ '/' :: b.data))

/-- `filepath.IsAbs` on Unix. -/
def goIsAbs (s : String) : Bool := headIs '/' s

/-- `filepath.Abs` with the working directory passed explicitly (Go reads it
from the process ambiently): absolute paths are cleaned, relative ones are
joined onto the working directory. -/
def goAbs (cwd s : String) : String :=
  if goIsAbs s then goClean s else goJoin cwd s

/-- `filepath.Base` on Unix: last element after trailing slashes are
removed; `""` gives `.` and an all-slash path gives `/`. -/
def goBase (s : String) : String :=
  if s.data = [] then "."
  else
    let stripped := s.data.reverse.dropWhile (fun c => c = '/')
    if stripped = [] then "/"
    else String.mk (stripped.takeWhile (fun c => c ≠ '/')).reverse

/-- `filepath.Ext` on Unix: the suffix of the last element starting at its
final dot, empty when the last element has no dot. -/
def goExt (s : String) : String :=
  let revSeg := s.data.reverse.takeWhile (fun c => c ≠ '/')
  if revSeg.any (fun c => c = '.') then
    String.mk ('.' :: (revSeg.takeWhile (fun c => c ≠ '.')).reverse)
  else ""

/-- Character-list length of a string (Go's `len` on ASCII content). -/
def strLen (s : String) : Nat := s.data.length

/-! ## Data model

`YamlNode` stands for a `*yaml.Node` document tree; only its allocation
identity matters to the studied code, so it is a tagged cell.  `SpecIndex`
embeds the fields of `index.SpecIndex` the fragment touches (`root`,
`specAbsolutePath`) plus an allocation tag.  `World` is the allocator /
effect-counter state threaded through the operations so that "how many
parses happened" and "is this the same object" are expressible. -/

/-- A parsed document tree (`*yaml.Node`), identified by its allocation tag. -/
structure YamlNode where
  id : Nat
  deriving DecidableEq, Repr

/-- The external document indexer's result (`*index.SpecIndex`), as seen by
the fragment: a root node pointer, the origin-path stamp, the configuration
it was built with, and an allocation tag giving it reference identity. -/
structure SpecIndex where
  root : Option YamlNode
  specAbsolutePath : String
  config : Nat
  id : Nat
  deriving DecidableEq, Repr

/-- Allocator and effect-counter state: `nextId` hands out fresh object
identities, `parseCount` counts invocations of the byte-content parser,
`buildCount` counts index constructions. -/
structure World where
  nextId : Nat
  parseCount : Nat
  buildCount : Nat
  deriving DecidableEq, Repr

/-- The world before any parse or build. -/
def World.init : World := ⟨0, 0, 0⟩

/-- Modelled from the spec: the document-tree parser collaborator
(`parse(bytes) -> (rootNode, error)` behind `yaml.Unmarshal` and
`datamodel.ExtractSpecInfoWithDocumentCheck`, neither part of the studied
fragment).  `ok` is the oracle deciding which byte contents parse; every
invocation counts one parse, and a success allocates a fresh node. -/
def doParse (ok : List Nat → Bool) (data : List Nat) (w : World) :
    World × Except String YamlNode :=
  if ok data then
    ({ w with parseCount := w.parseCount + 1, nextId := w.nextId + 1 }, .ok ⟨w.nextId⟩)
  else
    ({ w with parseCount := w.parseCount + 1 }, .error "unable to parse specification")

/-- Modelled from the spec: the external document indexer collaborator
(`build(rootNode, config) -> index`, behind `NewSpecIndexWithConfig`, not
part of the studied fragment).  It always succeeds in the fragment's usage;
it records the given root, allocates a fresh index object, and leaves the
origin stamp empty (the caller stamps it). -/
def NewSpecIndexWithConfig (root : YamlNode) (cfg : Nat) (w : World) : World × SpecIndex :=
  ({ w with nextId := w.nextId + 1, buildCount := w.buildCount + 1 },
   { root := some root, specAbsolutePath := "", config := cfg, id := w.nextId })

/-- File-extension classification (`FileExtension` constants `YAML`, `JSON`,
`UNSUPPORTED`). -/
inductive FileExtension
  | YAML
  | JSON
  | UNSUPPORTED
  deriving DecidableEq, Repr

/-- Modelled from the spec: `ExtractFileType` (declared outside the studied
fragment) classifies a candidate path by its extension into `YAML`, `JSON`
or `UNSUPPORTED`. -/
def ExtractFileType (p : String) : FileExtension :=
  let e := goExt p
  if e = ".yaml" ∨ e = ".yml" then .YAML
  else if e = ".json" then .JSON
  else .UNSUPPORTED

/-- `index.LocalFile`: one discovered file.  `data` is `Option` to express
Go's nil slice (the code tests `l.data == nil`); `index` and `parsed` are
the two lazily-populated caches. -/
structure LocalFile where
  filename : String
  name : String
  extension : FileExtension
  data : Option (List Nat)
  fullPath : String
  lastModified : Nat
  readingErrors : List String
  index : Option SpecIndex
  parsed : Option YamlNode
  deriving DecidableEq, Repr

/-! ## `LocalFile.Index` and `LocalFile.GetContentAsYAMLNode`

Each returns the updated record, the updated world, and the Go result
`(value, error)` as an `Except`. -/

/-- The body of `LocalFile.Index` past the cache check: parse the content
with `ExtractSpecInfoWithDocumentCheck`, build the index with
`NewSpecIndexWithConfig`, stamp `specAbsolutePath` with the record's full
path, cache it on the record and return it.  (Split out so that the
interleaving semantics can run it as the non-atomic second half of
`Index`.) -/
def indexBuild (ok : List Nat → Bool) (cfg : Nat) (l : LocalFile) (w : World) :
    LocalFile × World × Except String SpecIndex :=
  match l.data with
  | none => (l, w, .error "unable to parse specification")
  | some content =>
    match doParse ok content w with
    | (w1, .error e) => (l, w1, .error e)
    | (w1, .ok root) =>
      let pair := NewSpecIndexWithConfig root cfg w1
      let idx := { pair.2 with specAbsolutePath := l.fullPath }
      ({ l with index := some idx }, pair.1, .ok idx)

/-- `LocalFile.Index`: return the cached index if set, otherwise parse the
content and build, cache and return a fresh index. -/
def LocalFile.Index (ok : List Nat → Bool) (l : LocalFile) (cfg : Nat) (w : World) :
    LocalFile × World × Except String SpecIndex :=
  match l.index with
  | some idx => (l, w, .ok idx)
  | none => indexBuild ok cfg l w

/-- The parsing tail of `GetContentAsYAMLNode` (reached when neither cache
holds a tree): error on nil data; otherwise parse, back-fill a cached
index whose root is nil, cache the tree and return it. -/
def gcaynParse (ok : List Nat → Bool) (l : LocalFile) (w : World) :
    LocalFile × World × Except String YamlNode :=
  match l.data with
  | none => (l, w, .error ("no data to parse for file: " ++ l.fullPath))
  | some d =>
    match doParse ok d w with
    | (w1, .error e) => (l, w1, .error e)
    | (w1, .ok root) =>
      let l1 :=
        match l.index with
        | some idx =>
          if idx.root = none then { l with index := some { idx with root := some root } } else l
        | none => l
      ({ l1 with parsed := some root }, w1, .ok root)

/-- `LocalFile.GetContentAsYAMLNode`: return the cached parsed tree if set;
else return a cached index's non-nil root; else parse the data. -/
def LocalFile.GetContentAsYAMLNode (ok : List Nat → Bool) (l : LocalFile) (w : World) :
    LocalFile × World × Except String YamlNode :=
  match l.parsed with
  | some p => (l, w, .ok p)
  | none =>
    match l.index with
    | some idx =>
      match idx.root with
      | some r => (l, w, .ok r)
      | none => gcaynParse ok l w
    | none => gcaynParse ok l w

/-! ## `LocalFS`, `Open` and the read handle -/

/-- `fs.PathError`'s `Err` field as the fragment uses it. -/
inductive FsErr
  | notExist
  | invalid
  deriving DecidableEq, Repr

/-- `fs.PathError`. -/
structure PathError where
  op : String
  path : String
  err : FsErr
  deriving DecidableEq, Repr

/-- A Go `map[string]RolodexFile`, embedded as an association list where
assignment replaces the entry with the same key. -/
def mapInsert (k : String) (v : LocalFile) :
    List (String × LocalFile) → List (String × LocalFile)
  | [] => [(k, v)]
  | (k1, v1) :: rest =>
    if k1 = k then (k, v) :: rest else (k1, v1) :: mapInsert k v rest

/-- Lookup in the embedded map. -/
def mapLookup (k : String) : List (String × LocalFile) → Option LocalFile
  | [] => none
  | (k1, v1) :: rest => if k1 = k then some v1 else mapLookup k rest

/-- `index.LocalFS`: the local file source (fields the fragment touches). -/
structure LocalFS where
  entryPointDirectory : String
  baseDirectory : String
  Files : List (String × LocalFile)
  readingErrors : List String
  deriving DecidableEq, Repr

/-- `localRolodexFile`: a read handle over a record, with its private
cursor. -/
structure LocalRolodexFile where
  f : LocalFile
  offset : Int
  deriving DecidableEq, Repr

/-- `LocalFS.Open`: a non-absolute name is resolved as
`filepath.Abs(filepath.Join(l.baseDirectory, name))` (working directory
passed explicitly); the resolved name is looked up in `Files`; a hit wraps
the record in a fresh handle (zero-valued offset), a miss is a `PathError`
with `fs.ErrNotExist` carrying the attempted path. -/
def LocalFS.Open (l : LocalFS) (cwd name : String) : Except PathError LocalRolodexFile :=
  let resolved := if goIsAbs name then name else goAbs cwd (goJoin l.baseDirectory name)
  match mapLookup resolved l.Files with
  | some f => .ok { f := f, offset := 0 }
  | none => .error { op := "open", path := resolved, err := .notExist }

/-- The result of `localRolodexFile.Read`: the copied bytes (the Go count
`n` is their length), end-of-stream, or an invalid-offset `PathError`. -/
inductive ReadResult
  | ok (bytes : List Nat)
  | eof
  | invalid (path : String)
  deriving DecidableEq, Repr

/-- `localRolodexFile.Read`: end-of-stream once the offset has reached the
content length; a negative offset is a `PathError` with `fs.ErrInvalid`;
otherwise copy `min bLen (len - offset)` bytes from the record's content
at the offset and advance the offset by the number copied. -/
def LocalRolodexFile.Read (r : LocalRolodexFile) (bLen : Nat) :
    LocalRolodexFile × ReadResult :=
  let content := r.f.data.getD []
  if r.offset ≥ (content.length : Int) then (r, .eof)
  else if r.offset < 0 then (r, .invalid r.f.fullPath)
  else
    let chunk := (content.drop r.offset.toNat).take bLen
    ({ r with offset := r.offset + chunk.length }, .ok chunk)

/-! ## Discovery: `NewLocalFSWithConfig`

`fs.WalkDir` is embedded as a fold over a list of walk events, each carrying
the relative path, the directory-entry info (`none` for the root-error
callback), and the error `fs.WalkDir` hands to the callback for that entry.
The per-path open/stat/read capability of the configured `fs.FS` is a
function from path to an outcome record. -/

/-- The `fs.DirEntry` information the callback consults. -/
structure DirEntryInfo where
  isDir : Bool
  deriving DecidableEq, Repr

/-- One callback invocation of the walk: `(p, d, err)`. -/
structure WalkEvent where
  path : String
  entry : Option DirEntryInfo
  err : Option String
  deriving DecidableEq, Repr

/-- What opening one path on the configured `fs.FS` yields: an open error,
or a handle whose `Stat` gives `stat` (the mod time when non-nil) and
`statErr`, and whose `io.ReadAll` gives `readData`. -/
structure OpenOutcome where
  openErr : Option String
  stat : Option Nat
  statErr : Option String
  readData : Except String (List Nat)
  deriving Repr

/-- `index.LocalFSConfig` plus the ambient inputs the Go code reads from
the process: the walk events its `DirFS` produces, the per-path open
outcomes, the working directory (for `filepath.Abs`) and the current time
(for the `time.Now()` fallback). -/
structure LocalFSConfig where
  baseDirectory : String
  fileFilters : List String
  events : List WalkEvent
  fsOpen : String → OpenOutcome
  cwd : String
  now : Nat

/-- The mutable state the walk closure accumulates: the collected records
and the walk-level errors. -/
structure WalkState where
  localFiles : List (String × LocalFile)
  allErrors : List String
  deriving DecidableEq, Repr

/-- The record inserted for a successfully read candidate. -/
def mkLocalFile (p : String) (ext : FileExtension) (bytes : List Nat) (abs : String)
    (modTime : Nat) (readingErrors : List String) : LocalFile :=
  { filename := p, name := goBase p, extension := ext, data := some bytes,
    fullPath := abs, lastModified := modTime, readingErrors := readingErrors,
    index := none, parsed := none }

/-- The walk closure of `NewLocalFSWithConfig`, for one event.  A walk-level
error is returned (aborting the walk); directories, hidden-prefixed paths,
paths outside a single-file root, paths outside a configured filter list and
`UNSUPPORTED` extensions are skipped; `YAML`/`JSON` candidates are opened,
statted (failure falls back to `now` for the mod time) and read, failures
being recorded and the entry skipped; a full read inserts the record keyed
by its absolute path. -/
def processEvent (config : LocalFSConfig) (st : WalkState) (ev : WalkEvent) :
    Except String WalkState :=
  match ev.err with
  | some e => .error e
  | none =>
    match ev.entry with
    | none => .ok st
    | some d =>
      if d.isDir then .ok st
      else if strLen (goExt config.baseDirectory) > 2 ∧ ev.path ≠ goBase config.baseDirectory then
        .ok st
      else if headIs '.' ev.path then .ok st
      else if config.fileFilters ≠ [] ∧ ¬ config.fileFilters.contains ev.path then .ok st
      else
        match ExtractFileType ev.path with
        | .UNSUPPORTED => .ok st
        | extension =>
          let abs := goAbs config.cwd (goJoin config.baseDirectory ev.path)
          let oc := config.fsOpen ev.path
          match oc.openErr with
          | some e => .ok { st with allErrors := st.allErrors ++ [e] }
          | none =>
            let readingErrors1 : List String :=
              match oc.statErr with
              | some e => [e]
              | none => []
            let allErrors1 :=
              match oc.statErr with
              | some e => st.allErrors ++ [e]
              | none => st.allErrors
            let modTime :=
              match oc.stat with
              | some t => t
              | none => config.now
            match oc.readData with
            | .error e => .ok { localFiles := st.localFiles, allErrors := allErrors1 ++ [e] }
            | .ok bytes =>
              .ok { localFiles :=
                      mapInsert abs (mkLocalFile ev.path extension bytes abs modTime
                        readingErrors1) st.localFiles,
                    allErrors := allErrors1 }

/-- `fs.WalkDir`: fold the closure over the events, aborting at the first
error the closure returns. -/
def runWalk (config : LocalFSConfig) (st : WalkState) :
    List WalkEvent → Except String WalkState
  | [] => .ok st
  | ev :: rest =>
    match processEvent config st ev with
    | .error e => .error e
    | .ok st1 => runWalk config st1 rest

/-- `NewLocalFSWithConfig`: run the walk; a walk error fails construction,
otherwise assemble the `LocalFS` from the collected records and errors. -/
def NewLocalFSWithConfig (config : LocalFSConfig) : Except String LocalFS :=
  let absBaseDir := goAbs config.cwd config.baseDirectory
  match runWalk config ⟨[], []⟩ config.events with
  | .error e => .error e
  | .ok st =>
    .ok { entryPointDirectory := config.baseDirectory, baseDirectory := absBaseDir,
          Files := st.localFiles, readingErrors := st.allErrors }

/-! ## Interleaving semantics for concurrent `Index` calls

`LocalFile.Index` is not atomic: it first reads the cache (`l.index != nil`)
and, when the cache is empty, later runs the parse-build-write tail with no
synchronization in between.  Two threads are modelled, each either idle,
committed to building (its cache check saw nil), or finished with a result;
a schedule is a list of atomic actions interleaving the two halves. -/

instance {α β : Type} [DecidableEq α] [DecidableEq β] : DecidableEq (Except α β)
  | .error x, .error y =>
    if h : x = y then isTrue (h ▸ rfl) else isFalse (fun c => h (Except.error.inj c))
  | .error _, .ok _ => isFalse (fun c => Except.noConfusion c)
  | .ok _, .error _ => isFalse (fun c => Except.noConfusion c)
  | .ok x, .ok y =>
    if h : x = y then isTrue (h ▸ rfl) else isFalse (fun c => h (Except.ok.inj c))

/-- The phase one thread is in. -/
inductive TState
  | idle
  | willBuild
  | finished (res : Except String SpecIndex)
  deriving DecidableEq, Repr

/-- One atomic action: a thread's cache check, or its build-and-write tail.
`t = false` is thread 0, `t = true` is thread 1. -/
inductive RaceAction
  | check (t : Bool)
  | build (t : Bool)
  deriving DecidableEq, Repr

/-- Shared record and world plus each thread's phase. -/
structure RaceState where
  file : LocalFile
  w : World
  t0 : TState
  t1 : TState
  deriving DecidableEq, Repr

/-- Read one thread's phase. -/
def getT (t : Bool) (s : RaceState) : TState := if t then s.t1 else s.t0

/-- Write one thread's phase. -/
def setT (t : Bool) (ts : TState) (s : RaceState) : RaceState :=
  if t then { s with t1 := ts } else { s with t0 := ts }

/-- One step of the interleaved execution of `LocalFile.Index` by the two
threads: a `check` by an idle thread finishes immediately with a cached
index or commits the thread to building; a `build` by a committed thread
runs `indexBuild` on the current shared state, unconditionally publishing
its own index over whatever is cached. -/
def raceStep (ok : List Nat → Bool) (cfg : Nat) (s : RaceState) : RaceAction → RaceState
  | .check t =>
    match getT t s with
    | .idle =>
      match s.file.index with
      | some idx => setT t (.finished (.ok idx)) s
      | none => setT t .willBuild s
    | _ => s
  | .build t =>
    match getT t s with
    | .willBuild =>
      match indexBuild ok cfg s.file s.w with
      | (l1, w1, r) => setT t (.finished r) { s with file := l1, w := w1 }
    | _ => s

/-- Run a schedule of actions. -/
def raceRun (ok : List Nat → Bool) (cfg : Nat) (s : RaceState)
    (actions : List RaceAction) : RaceState :=
  actions.foldl (raceStep ok cfg) s

/-! ## Concrete fixtures for witnesses and counterexamples -/

/-- A parse oracle accepting every content. -/
def okAll : List Nat → Bool := fun _ => true

/-- A parse oracle accepting only the one-byte content `[1]`. -/
def okOnly1 : List Nat → Bool := fun d => d == [1]

/-- A freshly discovered record: bytes cached, nothing parsed or indexed. -/
def sampleFile : LocalFile :=
  { filename := "spec.yaml", name := "spec.yaml", extension := .YAML,
    data := some [104, 105], fullPath := "/base/spec.yaml", lastModified := 0,
    readingErrors := [], index := none, parsed := none }

/-- A record with no data and no caches. -/
def sampleNilFile : LocalFile :=
  { sampleFile with data := none }

/-- A record whose bytes the oracle `okOnly1` rejects. -/
def sampleBadFile : LocalFile :=
  { sampleFile with data := some [9] }

/-- A file source holding the one sample record, keyed by its absolute
path. -/
def sampleFS : LocalFS :=
  { entryPointDirectory := "/base", baseDirectory := "/base",
    Files := [("/base/spec.yaml", sampleFile)], readingErrors := [] }

/-- A record holding a built index whose root is nil, and no parsed tree. -/
def sampleIndexedFile : LocalFile :=
  { sampleFile with
    index := some { root := none, specAbsolutePath := "/base/spec.yaml", config := 0, id := 5 } }

/-- A record with a parsed tree already cached but no index, as
`GetContentAsYAMLNode` leaves a fresh record. -/
def sampleParsedFile : LocalFile :=
  { sampleFile with parsed := some ⟨0⟩ }

/-- Whether an `Except` holds a success. -/
def exceptOk {α β : Type} : Except α β → Bool
  | .ok _ => true
  | .error _ => false

/-- Per-path open/stat/read outcomes used by the discovery fixtures. -/
def sampleOpenFn : String → OpenOutcome := fun p =>
  if p = "a.yaml" then
    { openErr := none, stat := some 7, statErr := none, readData := .ok [1] }
  else if p = "bad.yaml" then
    { openErr := some "open failed", stat := none, statErr := none,
      readData := .error "unused" }
  else if p = "statless.yaml" then
    { openErr := none, stat := none, statErr := some "stat failed", readData := .ok [2] }
  else if p = "unreadable.yaml" then
    { openErr := none, stat := some 9, statErr := none, readData := .error "read failed" }
  else
    { openErr := none, stat := some 0, statErr := none, readData := .ok [] }

/-- A discovery configuration rooted at the directory `/base`. -/
def sampleWalkConfig : LocalFSConfig :=
  { baseDirectory := "/base", fileFilters := [], events := [], fsOpen := sampleOpenFn,
    cwd := "/cwd", now := 42 }

/-- A walk event for a plain file handed over without error. -/
def evFile (p : String) : WalkEvent := { path := p, entry := some ⟨false⟩, err := none }

/-- A walk event the walk hands over with a per-entry error. -/
def evFail (p e : String) : WalkEvent := { path := p, entry := some ⟨true⟩, err := some e }

/-! ## Call sequences

`parseCalls` / `indexCalls` run `GetContentAsYAMLNode` / `Index` a given
number of times sequentially on the same record, collecting every call's
result, for the memoization claims. -/

/-- Run `GetContentAsYAMLNode` `n` times sequentially, collecting results. -/
def parseCalls (ok : List Nat → Bool) : Nat → LocalFile → World →
    LocalFile × World × List (Except String YamlNode)
  | 0, l, w => (l, w, [])
  | n + 1, l, w =>
    match LocalFile.GetContentAsYAMLNode ok l w with
    | (l1, w1, r) =>
      match parseCalls ok n l1 w1 with
      | (l2, w2, rs) => (l2, w2, r :: rs)

/-- Run `Index` `n` times sequentially, collecting results. -/
def indexCalls (ok : List Nat → Bool) (cfg : Nat) : Nat → LocalFile → World →
    LocalFile × World × List (Except String SpecIndex)
  | 0, l, w => (l, w, [])
  | n + 1, l, w =>
    match LocalFile.Index ok l cfg w with
    | (l1, w1, r) =>
      match indexCalls ok cfg n l1 w1 with
      | (l2, w2, rs) => (l2, w2, r :: rs)

/-! ## Helper lemmas -/

/-- A cached index is returned unchanged, with no effect. -/
theorem index_cached (ok : List Nat → Bool) (cfg : Nat) (l : LocalFile) (w : World)
    (idx : SpecIndex) (h : l.index = some idx) :
    LocalFile.Index ok l cfg w = (l, w, .ok idx) := by
  simp [LocalFile.Index, h]

/-- A cached parsed tree is returned unchanged, with no effect. -/
theorem gcayn_cached (ok : List Nat → Bool) (l : LocalFile) (w : World)
    (p : YamlNode) (h : l.parsed = some p) :
    LocalFile.GetContentAsYAMLNode ok l w = (l, w, .ok p) := by
  simp [LocalFile.GetContentAsYAMLNode, h]

/-- The first successful `Index` call on a fresh record: one parse, one
build, a fresh index cached on the record and returned. -/
theorem index_first (ok : List Nat → Bool) (cfg : Nat) (l : LocalFile) (w : World)
    (d : List Nat) (hi : l.index = none) (hd : l.data = some d) (hok : ok d = true) :
    LocalFile.Index ok l cfg w =
      ({ l with index := some { root := some ⟨w.nextId⟩, specAbsolutePath := l.fullPath,
                                config := cfg, id := w.nextId + 1 } },
       { w with nextId := w.nextId + 2, parseCount := w.parseCount + 1,
                buildCount := w.buildCount + 1 },
       .ok { root := some ⟨w.nextId⟩, specAbsolutePath := l.fullPath,
             config := cfg, id := w.nextId + 1 }) := by
  simp [LocalFile.Index, indexBuild, doParse, NewSpecIndexWithConfig, hi, hd, hok]

/-- The first successful `GetContentAsYAMLNode` call on a fresh record (no
cached tree, no index): one parse, the fresh tree cached and returned. -/
theorem gcayn_first (ok : List Nat → Bool) (l : LocalFile) (w : World)
    (d : List Nat) (hp : l.parsed = none) (hi : l.index = none) (hd : l.data = some d)
    (hok : ok d = true) :
    LocalFile.GetContentAsYAMLNode ok l w =
      ({ l with parsed := some ⟨w.nextId⟩ },
       { w with nextId := w.nextId + 1, parseCount := w.parseCount + 1 },
       .ok ⟨w.nextId⟩) := by
  simp [LocalFile.GetContentAsYAMLNode, gcaynParse, doParse, hp, hi, hd, hok]

/-- `LocalFS.Open` with its resolution step exposed. -/
theorem open_eq (l : LocalFS) (cwd name : String) :
    l.Open cwd name =
      match mapLookup (if goIsAbs name then name
          else goAbs cwd (goJoin l.baseDirectory name)) l.Files with
      | some f => .ok { f := f, offset := 0 }
      | none =>
        .error { op := "open",
                 path := if goIsAbs name then name
                         else goAbs cwd (goJoin l.baseDirectory name),
                 err := .notExist } := rfl

/-- Once the index cache is set, any number of further `Index` calls
return the cached object with no effect. -/
theorem indexCalls_cached (ok : List Nat → Bool) (cfg : Nat) (n : Nat) (l : LocalFile)
    (w : World) (idx : SpecIndex) (h : l.index = some idx) :
    indexCalls ok cfg n l w = (l, w, List.replicate n (.ok idx)) := by
  induction n with
  | zero => simp [indexCalls]
  | succ n ih =>
    rw [indexCalls, index_cached ok cfg l w idx h]
    simp [ih, List.replicate_succ]

/-- Once the parsed-tree cache is set, any number of further
`GetContentAsYAMLNode` calls return the cached object with no effect. -/
theorem parseCalls_cached (ok : List Nat → Bool) (n : Nat) (l : LocalFile)
    (w : World) (p : YamlNode) (h : l.parsed = some p) :
    parseCalls ok n l w = (l, w, List.replicate n (.ok p)) := by
  induction n with
  | zero => simp [parseCalls]
  | succ n ih =>
    rw [parseCalls, gcayn_cached ok l w p h]
    simp [ih, List.replicate_succ]

/-! ## Claim C3 -/

/-- C3: for a freshly discovered record (bytes cached, nothing parsed or
indexed) whose content parses, calling `GetContentAsYAMLNode` or `Index`
`N + 1` times sequentially performs the underlying parse (and, for `Index`,
the index build) exactly once: the first call caches the result on the
record and every call — first and subsequent — returns that same object
(same allocation identity), with no further side effect on the world. -/
theorem c3_memoized_calls (ok1 ok2 : List Nat → Bool) (cfg : Nat) (l : LocalFile)
    (w : World) (d : List Nat) (hp : l.parsed = none) (hi : l.index = none)
    (hd : l.data = some d) (hok1 : ok1 d = true) (hok2 : ok2 d = true) (N : Nat) :
    (∃ nd : YamlNode,
      (parseCalls ok1 (N + 1) l w).2.2 = List.replicate (N + 1) (.ok nd) ∧
      (parseCalls ok1 (N + 1) l w).1.parsed = some nd ∧
      (parseCalls ok1 (N + 1) l w).2.1.parseCount = w.parseCount + 1) ∧
    (∃ idx : SpecIndex,
      (indexCalls ok2 cfg (N + 1) l w).2.2 = List.replicate (N + 1) (.ok idx) ∧
      (indexCalls ok2 cfg (N + 1) l w).1.index = some idx ∧
      (indexCalls ok2 cfg (N + 1) l w).2.1.parseCount = w.parseCount + 1 ∧
      (indexCalls ok2 cfg (N + 1) l w).2.1.buildCount = w.buildCount + 1) := by
  constructor
  · refine ⟨⟨w.nextId⟩, ?_⟩
    rw [parseCalls, gcayn_first ok1 l w d hp hi hd hok1]
    have hc := parseCalls_cached ok1 N { l with parsed := some ⟨w.nextId⟩ }
      { w with nextId := w.nextId + 1, parseCount := w.parseCount + 1 } ⟨w.nextId⟩ rfl
    simp [hc, List.replicate_succ]
  · refine ⟨{ root := some ⟨w.nextId⟩, specAbsolutePath := l.fullPath,
              config := cfg, id := w.nextId + 1 }, ?_⟩
    rw [indexCalls, index_first ok2 cfg l w d hi hd hok2]
    have hc := indexCalls_cached ok2 cfg N
      { l with index := some { root := some ⟨w.nextId⟩, specAbsolutePath := l.fullPath,
                               config := cfg, id := w.nextId + 1 } }
      { w with nextId := w.nextId + 2, parseCount := w.parseCount + 1,
               buildCount := w.buildCount + 1 }
      { root := some ⟨w.nextId⟩, specAbsolutePath := l.fullPath,
        config := cfg, id := w.nextId + 1 } rfl
    simp [hc, List.replicate_succ]

/-- Witness for C3 at a concrete record, oracle and `N = 2` (three calls). -/
theorem c3_memoized_calls_witness :
    sampleFile.parsed = none ∧ sampleFile.index = none ∧
    sampleFile.data = some [104, 105] ∧ okAll [104, 105] = true ∧
    ((∃ nd : YamlNode,
      (parseCalls okAll 3 sampleFile World.init).2.2 = List.replicate 3 (.ok nd) ∧
      (parseCalls okAll 3 sampleFile World.init).1.parsed = some nd ∧
      (parseCalls okAll 3 sampleFile World.init).2.1.parseCount = World.init.parseCount + 1) ∧
    (∃ idx : SpecIndex,
      (indexCalls okAll 0 3 sampleFile World.init).2.2 = List.replicate 3 (.ok idx) ∧
      (indexCalls okAll 0 3 sampleFile World.init).1.index = some idx ∧
      (indexCalls okAll 0 3 sampleFile World.init).2.1.parseCount = World.init.parseCount + 1 ∧
      (indexCalls okAll 0 3 sampleFile World.init).2.1.buildCount = World.init.buildCount + 1)) :=
  ⟨rfl, rfl, rfl, rfl,
   c3_memoized_calls okAll okAll 0 sampleFile World.init [104, 105] rfl rfl rfl rfl rfl 2⟩

/-! ## Claim C4 -/

/-- C4: a failed parse or failed index build caches nothing and leaves the
record unchanged.  With no tree cached: on nil data both operations return
an error and touch nothing; on content the oracle rejects, both return the
parse error, leave the record (hence both cache fields) unchanged, and a
second call re-attempts the parse from scratch (two failing calls perform
two parse attempts). -/
theorem c4_failure_uncached (ok1 ok2 : List Nat → Bool) (cfg : Nat) (l : LocalFile)
    (w : World) (hp : l.parsed = none) (hi : l.index = none) :
    (l.data = none →
      LocalFile.GetContentAsYAMLNode ok1 l w =
        (l, w, .error ("no data to parse for file: " ++ l.fullPath)) ∧
      LocalFile.Index ok2 l cfg w = (l, w, .error "unable to parse specification")) ∧
    (∀ d, l.data = some d → ok1 d = false →
      LocalFile.GetContentAsYAMLNode ok1 l w =
        (l, { w with parseCount := w.parseCount + 1 }, .error "unable to parse specification") ∧
      (parseCalls ok1 2 l w).1 = l ∧
      (parseCalls ok1 2 l w).2.1.parseCount = w.parseCount + 2) ∧
    (∀ d, l.data = some d → ok2 d = false →
      LocalFile.Index ok2 l cfg w =
        (l, { w with parseCount := w.parseCount + 1 }, .error "unable to parse specification") ∧
      (indexCalls ok2 cfg 2 l w).1 = l ∧
      (indexCalls ok2 cfg 2 l w).2.1.parseCount = w.parseCount + 2) := by
  refine ⟨fun hn => ?_, fun d hd hbad => ?_, fun d hd hbad => ?_⟩
  · constructor
    · simp [LocalFile.GetContentAsYAMLNode, gcaynParse, hp, hi, hn]
    · simp [LocalFile.Index, indexBuild, hi, hn]
  · have h1 : LocalFile.GetContentAsYAMLNode ok1 l w =
        (l, { w with parseCount := w.parseCount + 1 }, .error "unable to parse specification") := by
      simp [LocalFile.GetContentAsYAMLNode, gcaynParse, doParse, hp, hi, hd, hbad]
    have h2 : LocalFile.GetContentAsYAMLNode ok1 l { w with parseCount := w.parseCount + 1 } =
        (l, { w with parseCount := w.parseCount + 1 + 1 }, .error "unable to parse specification") := by
      simp [LocalFile.GetContentAsYAMLNode, gcaynParse, doParse, hp, hi, hd, hbad]
    refine ⟨h1, ?_, ?_⟩ <;>
      simp [parseCalls, h1, h2]
  · have h1 : LocalFile.Index ok2 l cfg w =
        (l, { w with parseCount := w.parseCount + 1 }, .error "unable to parse specification") := by
      simp [LocalFile.Index, indexBuild, doParse, hi, hd, hbad]
    have h2 : LocalFile.Index ok2 l cfg { w with parseCount := w.parseCount + 1 } =
        (l, { w with parseCount := w.parseCount + 1 + 1 }, .error "unable to parse specification") := by
      simp [LocalFile.Index, indexBuild, doParse, hi, hd, hbad]
    refine ⟨h1, ?_, ?_⟩ <;>
      simp [indexCalls, h1, h2]

/-- Witness for C4 at a concrete record whose bytes the oracle rejects. -/
theorem c4_failure_uncached_witness :
    sampleBadFile.parsed = none ∧ sampleBadFile.index = none ∧
    sampleBadFile.data = some [9] ∧ okOnly1 [9] = false ∧
    (LocalFile.GetContentAsYAMLNode okOnly1 sampleBadFile World.init =
      (sampleBadFile, { World.init with parseCount := World.init.parseCount + 1 },
       .error "unable to parse specification") ∧
     (parseCalls okOnly1 2 sampleBadFile World.init).1 = sampleBadFile ∧
     (parseCalls okOnly1 2 sampleBadFile World.init).2.1.parseCount =
       World.init.parseCount + 2) :=
  ⟨rfl, rfl, rfl, rfl,
   (c4_failure_uncached okOnly1 okOnly1 0 sampleBadFile World.init rfl rfl).2.1 [9] rfl rfl⟩

/-! ## Claim C10 -/

/-- C10: `GetContentAsYAMLNode` never parses when a tree is already
available on the record: with no cached tree but a cached index whose root
is non-nil, that root is returned with no parse and no mutation; when a
parse does occur and succeeds while a cached index has a nil root, that
index's root is back-filled with the fresh tree (which is also cached as
the parsed tree); and with nil content bytes (and no available tree) it
returns an error without mutating the record. -/
theorem c10_gcayn_reuse (ok : List Nat → Bool) (l : LocalFile) (w : World)
    (hp : l.parsed = none) :
    (∀ idx r, l.index = some idx → idx.root = some r →
      LocalFile.GetContentAsYAMLNode ok l w = (l, w, .ok r)) ∧
    (∀ idx d, l.index = some idx → idx.root = none → l.data = some d → ok d = true →
      LocalFile.GetContentAsYAMLNode ok l w =
        ({ l with index := some { idx with root := some ⟨w.nextId⟩ },
                  parsed := some ⟨w.nextId⟩ },
         { w with nextId := w.nextId + 1, parseCount := w.parseCount + 1 },
         .ok ⟨w.nextId⟩)) ∧
    (l.data = none → (l.index = none ∨ ∃ idx, l.index = some idx ∧ idx.root = none) →
      LocalFile.GetContentAsYAMLNode ok l w =
        (l, w, .error ("no data to parse for file: " ++ l.fullPath))) := by
  refine ⟨fun idx r hidx hroot => ?_, fun idx d hidx hroot hd hok => ?_, fun hn hcase => ?_⟩
  · simp [LocalFile.GetContentAsYAMLNode, hp, hidx, hroot]
  · simp [LocalFile.GetContentAsYAMLNode, gcaynParse, doParse, hp, hidx, hroot, hd, hok]
  · rcases hcase with hnone | ⟨idx, hidx, hroot⟩
    · simp [LocalFile.GetContentAsYAMLNode, gcaynParse, hp, hnone, hn]
    · simp [LocalFile.GetContentAsYAMLNode, gcaynParse, hp, hidx, hroot, hn]

/-- Witness for C10: back-filling a cached index with a nil root. -/
theorem c10_gcayn_reuse_witness :
    sampleIndexedFile.parsed = none ∧
    sampleIndexedFile.index =
      some { root := none, specAbsolutePath := "/base/spec.yaml", config := 0, id := 5 } ∧
    sampleIndexedFile.data = some [104, 105] ∧ okAll [104, 105] = true ∧
    LocalFile.GetContentAsYAMLNode okAll sampleIndexedFile World.init =
      ({ sampleIndexedFile with
          index := some { root := some ⟨World.init.nextId⟩,
                          specAbsolutePath := "/base/spec.yaml", config := 0, id := 5 },
          parsed := some ⟨World.init.nextId⟩ },
       { World.init with nextId := World.init.nextId + 1,
                         parseCount := World.init.parseCount + 1 },
       .ok ⟨World.init.nextId⟩) :=
  ⟨rfl, rfl, rfl, rfl,
   (c10_gcayn_reuse okAll sampleIndexedFile World.init rfl).2.1
     { root := none, specAbsolutePath := "/base/spec.yaml", config := 0, id := 5 }
     [104, 105] rfl rfl rfl rfl⟩

/-! ## Claim C1 -/

/-- C1 counterexample: on a fresh record, `GetContentAsYAMLNode` parses the
content (tree `⟨0⟩` cached as `parsed`, one parse); a subsequent `Index`
does **not** reuse that tree — it parses the content a second time (parse
count reaches 2) and builds its index around a distinct tree `⟨1⟩`, so the
record's parsed tree and built index do not derive from a single shared
parse. -/
theorem c1_counterexample :
    (LocalFile.GetContentAsYAMLNode okAll sampleFile World.init).1.parsed = some ⟨0⟩ ∧
    (LocalFile.GetContentAsYAMLNode okAll sampleFile World.init).2.1.parseCount = 1 ∧
    (LocalFile.Index okAll (LocalFile.GetContentAsYAMLNode okAll sampleFile World.init).1 0
        (LocalFile.GetContentAsYAMLNode okAll sampleFile World.init).2.1).2.1.parseCount = 2 ∧
    (LocalFile.Index okAll (LocalFile.GetContentAsYAMLNode okAll sampleFile World.init).1 0
        (LocalFile.GetContentAsYAMLNode okAll sampleFile World.init).2.1).1.parsed =
      some ⟨0⟩ ∧
    (LocalFile.Index okAll (LocalFile.GetContentAsYAMLNode okAll sampleFile World.init).1 0
        (LocalFile.GetContentAsYAMLNode okAll sampleFile World.init).2.1).1.index =
      some { root := some ⟨1⟩, specAbsolutePath := "/base/spec.yaml", config := 0, id := 2 } := by
  decide

/-- C1 amended: `Index` never consults the cached parsed tree — whenever
the index cache is unset and the content parses, `Index` performs its own
parse of the content (one more parse, with the index built around the
freshly allocated tree), regardless of what `parsed` holds; the reuse that
does hold is the converse one: `GetContentAsYAMLNode` returns an existing
index's non-nil root instead of parsing. -/
theorem c1_index_reparses (ok : List Nat → Bool) (cfg : Nat) (l : LocalFile) (w : World) :
    (∀ d, l.index = none → l.data = some d → ok d = true →
      (LocalFile.Index ok l cfg w).2.1.parseCount = w.parseCount + 1 ∧
      (LocalFile.Index ok l cfg w).2.2 =
        .ok { root := some ⟨w.nextId⟩, specAbsolutePath := l.fullPath,
              config := cfg, id := w.nextId + 1 }) ∧
    (∀ idx r, l.parsed = none → l.index = some idx → idx.root = some r →
      LocalFile.GetContentAsYAMLNode ok l w = (l, w, .ok r)) := by
  refine ⟨fun d hi hd hok => ?_, fun idx r hp hidx hroot => ?_⟩
  · rw [index_first ok cfg l w d hi hd hok]
    exact ⟨rfl, rfl⟩
  · simp [LocalFile.GetContentAsYAMLNode, hp, hidx, hroot]

/-- Witness for the amended C1: even with a parsed tree cached, `Index`
performs another parse. -/
theorem c1_index_reparses_witness :
    sampleParsedFile.parsed = some ⟨0⟩ ∧ sampleParsedFile.index = none ∧
    sampleParsedFile.data = some [104, 105] ∧ okAll [104, 105] = true ∧
    ((LocalFile.Index okAll sampleParsedFile 0 ⟨1, 1, 0⟩).2.1.parseCount = 2 ∧
     (LocalFile.Index okAll sampleParsedFile 0 ⟨1, 1, 0⟩).2.2 =
       .ok { root := some ⟨1⟩, specAbsolutePath := "/base/spec.yaml",
             config := 0, id := 2 }) :=
  ⟨rfl, rfl, rfl, rfl,
   (c1_index_reparses okAll 0 sampleParsedFile ⟨1, 1, 0⟩).1 [104, 105] rfl rfl rfl⟩

/-! ## Claim C6 -/

/-- C6: `Open` returns a fresh handle whose cursor starts at 0; `Read`
copies from the record's content at the handle's offset (`min bLen
remaining` bytes), advances the offset by the number copied and returns the
copied bytes; an offset at or past the content length reports end-of-stream;
a negative offset is an invalid-argument `PathError`; and `Read` never
touches the shared record (so one handle cannot disturb another's
position). -/
theorem c6_handle_read (fs : LocalFS) (cwd name : String) (r : LocalRolodexFile)
    (bLen : Nat) :
    (∀ h0, fs.Open cwd name = .ok h0 → h0.offset = 0) ∧
    (((r.f.data.getD []).length : Int) ≤ r.offset → r.Read bLen = (r, .eof)) ∧
    (r.offset < 0 → r.Read bLen = (r, .invalid r.f.fullPath)) ∧
    (0 ≤ r.offset → r.offset < ((r.f.data.getD []).length : Int) →
      r.Read bLen =
        ({ r with offset :=
             r.offset + (((r.f.data.getD []).drop r.offset.toNat).take bLen).length },
         .ok (((r.f.data.getD []).drop r.offset.toNat).take bLen))) ∧
    ((r.Read bLen).1.f = r.f) := by
  refine ⟨fun h0 hopen => ?_, fun heof => ?_, fun hneg => ?_, fun hge hlt => ?_, ?_⟩
  · rw [open_eq] at hopen
    rcases hm : mapLookup (if goIsAbs name then name
        else goAbs cwd (goJoin fs.baseDirectory name)) fs.Files with _ | f
    · rw [hm] at hopen
      exact absurd hopen (by simp)
    · rw [hm] at hopen
      cases hopen
      rfl
  · simp [LocalRolodexFile.Read, heof]
  · have hlt2 : r.offset < ((r.f.data.getD []).length : Int) :=
      lt_of_lt_of_le hneg (Int.ofNat_nonneg _)
    simp [LocalRolodexFile.Read, not_le.mpr hlt2, hneg]
  · simp [LocalRolodexFile.Read, not_le.mpr hlt, not_lt.mpr hge]
  · unfold LocalRolodexFile.Read
    by_cases h1 : r.offset ≥ ((r.f.data.getD []).length : Int)
    · simp [h1]
    · by_cases h2 : r.offset < 0
      · simp [h1, h2]
      · simp [h1, h2]

/-- Witness for C6: open a handle on a concrete file source, then read past
it in steps, observing the cursor semantics. -/
theorem c6_handle_read_witness :
    (∀ h0, sampleFS.Open "/cwd" "spec.yaml" = .ok h0 → h0.offset = 0) ∧
    (LocalRolodexFile.Read ⟨sampleFile, 0⟩ 1 = (⟨sampleFile, 1⟩, .ok [104]) ∧
     LocalRolodexFile.Read ⟨sampleFile, 1⟩ 5 = (⟨sampleFile, 2⟩, .ok [105]) ∧
     LocalRolodexFile.Read ⟨sampleFile, 2⟩ 5 = (⟨sampleFile, 2⟩, .eof) ∧
     LocalRolodexFile.Read ⟨sampleFile, -1⟩ 5 =
       (⟨sampleFile, -1⟩, .invalid "/base/spec.yaml")) :=
  ⟨(c6_handle_read sampleFS "/cwd" "spec.yaml" ⟨sampleFile, 0⟩ 1).1,
   ⟨((c6_handle_read sampleFS "/cwd" "spec.yaml" ⟨sampleFile, 0⟩ 1).2.2.2.1
       (by decide) (by decide)).trans (by decide),
    ((c6_handle_read sampleFS "/cwd" "spec.yaml" ⟨sampleFile, 1⟩ 5).2.2.2.1
       (by decide) (by decide)).trans (by decide),
    (c6_handle_read sampleFS "/cwd" "spec.yaml" ⟨sampleFile, 2⟩ 5).2.1 (by decide),
    (c6_handle_read sampleFS "/cwd" "spec.yaml" ⟨sampleFile, -1⟩ 5).2.2.1 (by decide)⟩⟩

/-! ## Claim C5 -/

/-- C5 counterexample: `Open` normalizes only non-absolute paths.  The
relative spelling `"spec.yaml"` and the absolute spelling
`"/base/x/../spec.yaml"` both normalize to the absolute path
`"/base/spec.yaml"`, at which an entry exists — yet the first `Open`
returns a handle and the second fails not-found, because an absolute
argument is looked up verbatim with its `..` segment intact. -/
theorem c5_counterexample :
    goAbs "/cwd" (goJoin "/base" "spec.yaml") = "/base/spec.yaml" ∧
    goClean "/base/x/../spec.yaml" = "/base/spec.yaml" ∧
    sampleFS.Open "/cwd" "spec.yaml" = .ok { f := sampleFile, offset := 0 } ∧
    sampleFS.Open "/cwd" "/base/x/../spec.yaml" =
      .error { op := "open", path := "/base/x/../spec.yaml", err := .notExist } := by
  decide

/-- C5 amended: `Open` resolves a non-absolute path against the base
directory first (joining and normalizing `.` and `..` segments), while an
absolute path is looked up verbatim without normalization.  A hit wraps the
looked-up record in a fresh handle; a miss is a not-found error carrying
the attempted path.  Consequently identity holds in this form: any two
**non-absolute** paths that resolve to the same absolute path yield the
very same `Open` result, hence handles backed by the same record and cache
state; it does not extend to non-normalized absolute spellings. -/
theorem c5_open_resolution (fs : LocalFS) (cwd p1 p2 : String)
    (h1 : goIsAbs p1 = false) (h2 : goIsAbs p2 = false)
    (heq : goAbs cwd (goJoin fs.baseDirectory p1) = goAbs cwd (goJoin fs.baseDirectory p2)) :
    fs.Open cwd p1 = fs.Open cwd p2 ∧
    (∀ f, mapLookup (goAbs cwd (goJoin fs.baseDirectory p1)) fs.Files = some f →
      fs.Open cwd p1 = .ok { f := f, offset := 0 }) ∧
    (mapLookup (goAbs cwd (goJoin fs.baseDirectory p1)) fs.Files = none →
      fs.Open cwd p1 =
        .error { op := "open", path := goAbs cwd (goJoin fs.baseDirectory p1),
                 err := .notExist }) ∧
    (∀ q f, goIsAbs q = true → mapLookup q fs.Files = some f →
      fs.Open cwd q = .ok { f := f, offset := 0 }) ∧
    (∀ q, goIsAbs q = true → mapLookup q fs.Files = none →
      fs.Open cwd q = .error { op := "open", path := q, err := .notExist }) := by
  refine ⟨?_, fun f hf => ?_, fun hn => ?_, fun q f hq hf => ?_, fun q hq hn => ?_⟩
  · rw [open_eq, open_eq, h1, h2]
    simp only [Bool.false_eq_true, if_false, heq]
  · rw [open_eq, h1]
    simp only [Bool.false_eq_true, if_false, hf]
  · rw [open_eq, h1]
    simp only [Bool.false_eq_true, if_false, hn]
  · rw [open_eq, hq]
    simp only [if_true, hf]
  · rw [open_eq, hq]
    simp only [if_true, hn]

/-- Witness for the amended C5: the spellings `"spec.yaml"` and
`"./spec.yaml"` (both non-absolute, same normalized absolute path) open the
very same record. -/
theorem c5_open_resolution_witness :
    goIsAbs "spec.yaml" = false ∧ goIsAbs "./spec.yaml" = false ∧
    goAbs "/cwd" (goJoin "/base" "spec.yaml") =
      goAbs "/cwd" (goJoin "/base" "./spec.yaml") ∧
    sampleFS.Open "/cwd" "spec.yaml" = sampleFS.Open "/cwd" "./spec.yaml" ∧
    sampleFS.Open "/cwd" "spec.yaml" = .ok { f := sampleFile, offset := 0 } :=
  ⟨rfl, rfl, by decide,
   (c5_open_resolution sampleFS "/cwd" "spec.yaml" "./spec.yaml" rfl rfl (by decide)).1,
   (c5_open_resolution sampleFS "/cwd" "spec.yaml" "./spec.yaml" rfl rfl (by decide)).2.1
     sampleFile (by decide)⟩

/-! ## Claim C9 -/

/-- C9 counterexample: with no per-record serialization, the schedule in
which both threads pass the cache check before either builds makes both
parse and build: two parses happen, the threads finish holding **different**
index objects (ids 1 and 3, around distinct trees 0 and 2), and the cache
ends up with the second thread's index while the first thread holds an
index that was never the cached one — refuting "serialized, both receive
the single winning cached index". -/
theorem c9_counterexample :
    (raceRun okAll 0 ⟨sampleFile, World.init, .idle, .idle⟩
        [.check false, .check true, .build false, .build true]).w.parseCount = 2 ∧
    (raceRun okAll 0 ⟨sampleFile, World.init, .idle, .idle⟩
        [.check false, .check true, .build false, .build true]).t0 =
      .finished (.ok { root := some ⟨0⟩, specAbsolutePath := "/base/spec.yaml",
                       config := 0, id := 1 }) ∧
    (raceRun okAll 0 ⟨sampleFile, World.init, .idle, .idle⟩
        [.check false, .check true, .build false, .build true]).t1 =
      .finished (.ok { root := some ⟨2⟩, specAbsolutePath := "/base/spec.yaml",
                       config := 0, id := 3 }) ∧
    (raceRun okAll 0 ⟨sampleFile, World.init, .idle, .idle⟩
        [.check false, .check true, .build false, .build true]).file.index =
      some { root := some ⟨2⟩, specAbsolutePath := "/base/spec.yaml",
             config := 0, id := 3 } := by
  decide

/-- C9 amended: the code does not serialize the build — under the
interleaving semantics of `Index`'s two halves (cache check, then
parse-build-publish), a serialized schedule does behave as the claim says
(the late thread observes the winner's cached index, one parse in total),
but the overlapping schedule performs two parses and two builds and the two
threads receive distinct index objects, the later write overwriting the
earlier; "build at most once, observed once by all" holds only when the
executions do not interleave. -/
theorem c9_no_serialization (ok : List Nat → Bool) (cfg : Nat) (l : LocalFile) (w : World)
    (d : List Nat) (hi : l.index = none) (hd : l.data = some d) (hok : ok d = true) :
    (raceRun ok cfg ⟨l, w, .idle, .idle⟩ [.check false, .build false, .check true] =
      { file := { l with index := some { root := some ⟨w.nextId⟩,
                                         specAbsolutePath := l.fullPath, config := cfg,
                                         id := w.nextId + 1 } },
        w := { w with nextId := w.nextId + 2, parseCount := w.parseCount + 1,
                      buildCount := w.buildCount + 1 },
        t0 := .finished (.ok { root := some ⟨w.nextId⟩, specAbsolutePath := l.fullPath,
                               config := cfg, id := w.nextId + 1 }),
        t1 := .finished (.ok { root := some ⟨w.nextId⟩, specAbsolutePath := l.fullPath,
                               config := cfg, id := w.nextId + 1 }) }) ∧
    ((raceRun ok cfg ⟨l, w, .idle, .idle⟩
        [.check false, .check true, .build false, .build true]).w.parseCount =
          w.parseCount + 2 ∧
     (raceRun ok cfg ⟨l, w, .idle, .idle⟩
        [.check false, .check true, .build false, .build true]).t0 =
       .finished (.ok { root := some ⟨w.nextId⟩, specAbsolutePath := l.fullPath,
                        config := cfg, id := w.nextId + 1 }) ∧
     (raceRun ok cfg ⟨l, w, .idle, .idle⟩
        [.check false, .check true, .build false, .build true]).t1 =
       .finished (.ok { root := some ⟨w.nextId + 2⟩, specAbsolutePath := l.fullPath,
                        config := cfg, id := w.nextId + 3 }) ∧
     ({ root := some (⟨w.nextId⟩ : YamlNode), specAbsolutePath := l.fullPath,
        config := cfg, id := w.nextId + 1 } : SpecIndex) ≠
       { root := some ⟨w.nextId + 2⟩, specAbsolutePath := l.fullPath,
         config := cfg, id := w.nextId + 3 } ∧
     (raceRun ok cfg ⟨l, w, .idle, .idle⟩
        [.check false, .check true, .build false, .build true]).file.index =
       some { root := some ⟨w.nextId + 2⟩, specAbsolutePath := l.fullPath,
              config := cfg, id := w.nextId + 3 }) := by
  have hbuild : indexBuild ok cfg l w =
      ({ l with index := some { root := some ⟨w.nextId⟩, specAbsolutePath := l.fullPath,
                                config := cfg, id := w.nextId + 1 } },
       { w with nextId := w.nextId + 2, parseCount := w.parseCount + 1,
                buildCount := w.buildCount + 1 },
       .ok { root := some ⟨w.nextId⟩, specAbsolutePath := l.fullPath,
             config := cfg, id := w.nextId + 1 }) := by
    simp [indexBuild, doParse, NewSpecIndexWithConfig, hd, hok]
  have hbuild2 : indexBuild ok cfg
      { l with index := some { root := some ⟨w.nextId⟩, specAbsolutePath := l.fullPath,
                               config := cfg, id := w.nextId + 1 } }
      { w with nextId := w.nextId + 2, parseCount := w.parseCount + 1,
               buildCount := w.buildCount + 1 } =
      ({ l with index := some { root := some ⟨w.nextId + 2⟩, specAbsolutePath := l.fullPath,
                                config := cfg, id := w.nextId + 3 } },
       { w with nextId := w.nextId + 4, parseCount := w.parseCount + 2,
                buildCount := w.buildCount + 2 },
       .ok { root := some ⟨w.nextId + 2⟩, specAbsolutePath := l.fullPath,
             config := cfg, id := w.nextId + 3 }) := by
    simp [indexBuild, doParse, NewSpecIndexWithConfig, hd, hok]
  constructor
  · simp [raceRun, raceStep, getT, setT, hi, hbuild]
  · refine ⟨?_, ?_, ?_, ?_, ?_⟩ <;>
      simp [raceRun, raceStep, getT, setT, hi, hbuild, hbuild2]

/-- Witness for the amended C9 at the concrete sample record. -/
theorem c9_no_serialization_witness :
    sampleFile.index = none ∧ sampleFile.data = some [104, 105] ∧
    okAll [104, 105] = true ∧
    raceRun okAll 0 ⟨sampleFile, World.init, .idle, .idle⟩
        [.check false, .build false, .check true] =
      { file := { sampleFile with
          index := some { root := some ⟨0⟩, specAbsolutePath := "/base/spec.yaml",
                          config := 0, id := 1 } },
        w := ⟨2, 1, 1⟩,
        t0 := .finished (.ok { root := some ⟨0⟩, specAbsolutePath := "/base/spec.yaml",
                               config := 0, id := 1 }),
        t1 := .finished (.ok { root := some ⟨0⟩, specAbsolutePath := "/base/spec.yaml",
                               config := 0, id := 1 }) } :=
  ⟨rfl, rfl, rfl,
   ((c9_no_serialization okAll 0 sampleFile World.init [104, 105] rfl rfl rfl).1).trans
     (by decide)⟩

/-! ## Walk lemmas and fixtures -/

/-- The closure propagates a walk-level per-entry error verbatim. -/
theorem processEvent_err (config : LocalFSConfig) (st : WalkState) (ev : WalkEvent)
    (e : String) (h : ev.err = some e) : processEvent config st ev = .error e := by
  unfold processEvent
  rw [h]

/-- A success is extractable from `exceptOk`. -/
theorem exceptOk_exists {α β : Type} {x : Except α β} (h : exceptOk x = true) :
    ∃ b, x = .ok b := by
  cases x with
  | error e => exact Bool.noConfusion h
  | ok b => exact ⟨b, rfl⟩

/-- The closure never fails on an event the walk hands over without an
error: every other branch collects or skips. -/
theorem processEvent_ok (config : LocalFSConfig) (st : WalkState) (ev : WalkEvent)
    (h : ev.err = none) : ∃ st1, processEvent config st ev = .ok st1 := by
  refine exceptOk_exists ?_
  unfold processEvent
  rw [h]
  repeat' split
  all_goals try rfl
  all_goals try contradiction
  all_goals
    cases ho : (config.fsOpen ev.path).openErr <;>
    cases hs : (config.fsOpen ev.path).statErr <;>
    cases hst : (config.fsOpen ev.path).stat <;>
    cases hr : (config.fsOpen ev.path).readData <;>
    simp [ho, hs, hst, hr, exceptOk]

/-- A walk over error-free events completes. -/
theorem runWalk_ok (config : LocalFSConfig) (evs : List WalkEvent) (st : WalkState)
    (h : ∀ ev ∈ evs, ev.err = none) : ∃ st1, runWalk config st evs = .ok st1 := by
  induction evs generalizing st with
  | nil => exact ⟨st, rfl⟩
  | cons ev rest ih =>
    obtain ⟨st1, hst1⟩ := processEvent_ok config st ev (h ev (List.mem_cons_self ev rest))
    rw [runWalk, hst1]
    exact ih st1 (fun x hx => h x (List.mem_cons_of_mem ev hx))

/-- The first event carrying a walk error aborts the whole walk with that
error, however many entries were already processed. -/
theorem runWalk_abort (config : LocalFSConfig) (es1 : List WalkEvent) (ev : WalkEvent)
    (es2 : List WalkEvent) (st : WalkState) (e : String)
    (h1 : ∀ x ∈ es1, x.err = none) (h2 : ev.err = some e) :
    runWalk config st (es1 ++ ev :: es2) = .error e := by
  induction es1 generalizing st with
  | nil =>
    rw [List.nil_append, runWalk, processEvent_err config st ev e h2]
  | cons x rest ih =>
    obtain ⟨st1, hst1⟩ := processEvent_ok config st x (h1 x (List.mem_cons_self x rest))
    rw [List.cons_append, runWalk, hst1]
    exact ih st1 (fun y hy => h1 y (List.mem_cons_of_mem x hy))

/-! ## Claim C2 -/

/-- C2 counterexample: the walk starts fine and its first entry is
collected (construction over that entry alone succeeds and returns a
populated file source), yet a per-entry error on the *second* entry makes
`NewLocalFSWithConfig` fail as a whole — the callback returns the error,
aborting the walk — contradicting "an error surfaced by the walk for an
individual entry is non-fatal and discovery still returns a populated file
source". -/
theorem c2_counterexample :
    NewLocalFSWithConfig { sampleWalkConfig with
        events := [evFile "a.yaml", evFail "sub" "permission denied"] } =
      .error "permission denied" ∧
    NewLocalFSWithConfig { sampleWalkConfig with events := [evFile "a.yaml"] } =
      .ok { entryPointDirectory := "/base", baseDirectory := "/base",
            Files := [("/base/a.yaml", mkLocalFile "a.yaml" .YAML [1] "/base/a.yaml" 7 [])],
            readingErrors := [] } := by
  decide

/-- C2 amended: construction fails as a whole whenever the walk surfaces a
per-entry error for **any** entry — the callback propagates it and the walk
aborts at that point — not only when the walk cannot be started; a walk
whose events all arrive error-free always completes construction (per-file
open/stat/read problems are collected, never fatal). -/
theorem c2_entry_error_fatal (config : LocalFSConfig) :
    ((∀ ev ∈ config.events, ev.err = none) →
      ∃ fsv, NewLocalFSWithConfig config = .ok fsv) ∧
    (∀ es1 ev es2 e, config.events = es1 ++ ev :: es2 →
      (∀ x ∈ es1, x.err = none) → ev.err = some e →
      NewLocalFSWithConfig config = .error e) := by
  constructor
  · intro h
    obtain ⟨st1, hst1⟩ := runWalk_ok config config.events ⟨[], []⟩ h
    refine ⟨{ entryPointDirectory := config.baseDirectory,
              baseDirectory := goAbs config.cwd config.baseDirectory,
              Files := st1.localFiles, readingErrors := st1.allErrors }, ?_⟩
    simp [NewLocalFSWithConfig, hst1]
  · intro es1 ev es2 e hsplit h1 h2
    have habort := runWalk_abort config es1 ev es2 ⟨[], []⟩ e h1 h2
    rw [← hsplit] at habort
    simp [NewLocalFSWithConfig, habort]

/-- Witness for the amended C2: the error-free two-file walk completes, and
the event list headed by one good entry aborts at the erroneous second
entry. -/
theorem c2_entry_error_fatal_witness :
    (∃ fsv, NewLocalFSWithConfig { sampleWalkConfig with
        events := [evFile "a.yaml", evFile "statless.yaml"] } = .ok fsv) ∧
    NewLocalFSWithConfig { sampleWalkConfig with
        events := [evFile "a.yaml", evFail "sub" "permission denied"] } =
      .error "permission denied" :=
  ⟨(c2_entry_error_fatal { sampleWalkConfig with
      events := [evFile "a.yaml", evFile "statless.yaml"] }).1 (by decide),
   (c2_entry_error_fatal { sampleWalkConfig with
      events := [evFile "a.yaml", evFail "sub" "permission denied"] }).2
      [evFile "a.yaml"] (evFail "sub" "permission denied") [] "permission denied" rfl
      (by decide) rfl⟩

/-! ## Claim C8 -/

/-- C8: on an eligible candidate, per-file acquisition failures are partial
and never remove collected entries: an open failure records the error at
the walk level and creates no entry, leaving the collected map untouched; a
read failure likewise; a stat-only failure still creates the entry, with
the modification time falling back to the configured current time and the
stat error recorded both on the record and at the walk level; and on full
success the record is inserted keyed by its absolute path with `content`
the full byte buffer and the stat modification time. -/
theorem c8_partial_acquisition (config : LocalFSConfig) (st : WalkState) (ev : WalkEvent)
    (d : DirEntryInfo) (herr : ev.err = none) (he : ev.entry = some d)
    (hd : d.isDir = false)
    (hroot : ¬(strLen (goExt config.baseDirectory) > 2 ∧ ev.path ≠ goBase config.baseDirectory))
    (hhid : headIs '.' ev.path = false)
    (hfil : config.fileFilters = [] ∨ config.fileFilters.contains ev.path = true)
    (hext : ExtractFileType ev.path = .YAML ∨ ExtractFileType ev.path = .JSON) :
    (∀ e, (config.fsOpen ev.path).openErr = some e →
      processEvent config st ev = .ok { st with allErrors := st.allErrors ++ [e] }) ∧
    (∀ e, (config.fsOpen ev.path).openErr = none →
      (config.fsOpen ev.path).statErr = none →
      (config.fsOpen ev.path).readData = .error e →
      processEvent config st ev = .ok { st with allErrors := st.allErrors ++ [e] }) ∧
    (∀ e bytes, (config.fsOpen ev.path).openErr = none →
      (config.fsOpen ev.path).statErr = some e →
      (config.fsOpen ev.path).stat = none →
      (config.fsOpen ev.path).readData = .ok bytes →
      processEvent config st ev = .ok
        { localFiles := mapInsert (goAbs config.cwd (goJoin config.baseDirectory ev.path))
            (mkLocalFile ev.path (ExtractFileType ev.path) bytes
              (goAbs config.cwd (goJoin config.baseDirectory ev.path)) config.now [e])
            st.localFiles,
          allErrors := st.allErrors ++ [e] }) ∧
    (∀ t bytes, (config.fsOpen ev.path).openErr = none →
      (config.fsOpen ev.path).statErr = none →
      (config.fsOpen ev.path).stat = some t →
      (config.fsOpen ev.path).readData = .ok bytes →
      processEvent config st ev = .ok
        { localFiles := mapInsert (goAbs config.cwd (goJoin config.baseDirectory ev.path))
            (mkLocalFile ev.path (ExtractFileType ev.path) bytes
              (goAbs config.cwd (goJoin config.baseDirectory ev.path)) t [])
            st.localFiles,
          allErrors := st.allErrors }) := by
  have hfil2 : ¬(config.fileFilters ≠ [] ∧ ¬ config.fileFilters.contains ev.path = true) := by
    rcases hfil with h | h
    · exact fun hc => hc.1 h
    · exact fun hc => hc.2 h
  refine ⟨fun e hopen => ?_, fun e hopen hstat hread => ?_,
          fun e bytes hopen hstat hst0 hread => ?_,
          fun t bytes hopen hstat hstt hread => ?_⟩
  · unfold processEvent
    rw [herr, he]
    rcases hext with hft | hft <;>
      simp [hd, if_neg hroot, hhid, hft, hopen] <;>
      (intro h1 h2
       rcases hfil with hf | hf
       · exact absurd hf h1
       · exact absurd (List.elem_iff.mp hf) h2)
  · unfold processEvent
    rw [herr, he]
    rcases hext with hft | hft <;>
      simp [hd, if_neg hroot, hhid, hft, hopen, hstat, hread] <;>
      (intro h1 h2
       rcases hfil with hf | hf
       · exact absurd hf h1
       · exact absurd (List.elem_iff.mp hf) h2)
  · unfold processEvent
    rw [herr, he]
    rcases hext with hft | hft <;>
      simp [hd, if_neg hroot, hhid, hft, hopen, hstat, hst0, hread, mkLocalFile] <;>
      (intro h1 h2
       rcases hfil with hf | hf
       · exact absurd hf h1
       · exact absurd (List.elem_iff.mp hf) h2)
  · unfold processEvent
    rw [herr, he]
    rcases hext with hft | hft <;>
      simp [hd, if_neg hroot, hhid, hft, hopen, hstat, hstt, hread, mkLocalFile] <;>
      (intro h1 h2
       rcases hfil with hf | hf
       · exact absurd hf h1
       · exact absurd (List.elem_iff.mp hf) h2)

/-- Witness for C8 at the concrete fixtures: an open failure is collected
with no entry; a stat failure still yields an entry stamped with the
fallback time. -/
theorem c8_partial_acquisition_witness :
    (sampleOpenFn "bad.yaml").openErr = some "open failed" ∧
    processEvent sampleWalkConfig ⟨[], []⟩ (evFile "bad.yaml") =
      .ok ⟨[], ["open failed"]⟩ ∧
    (sampleOpenFn "statless.yaml").statErr = some "stat failed" ∧
    processEvent sampleWalkConfig ⟨[], []⟩ (evFile "statless.yaml") =
      .ok ⟨[("/base/statless.yaml",
             mkLocalFile "statless.yaml" .YAML [2] "/base/statless.yaml" 42 ["stat failed"])],
           ["stat failed"]⟩ :=
  ⟨rfl,
   ((c8_partial_acquisition sampleWalkConfig ⟨[], []⟩ (evFile "bad.yaml") ⟨false⟩ rfl rfl rfl
      (by decide) rfl (Or.inl rfl) (Or.inl (by decide))).1 "open failed" rfl).trans
     (by decide),
   rfl,
   (((c8_partial_acquisition sampleWalkConfig ⟨[], []⟩ (evFile "statless.yaml") ⟨false⟩ rfl rfl
      rfl (by decide) rfl (Or.inl rfl) (Or.inl (by decide))).2.2.1 "stat failed" [2]
      rfl rfl rfl rfl)).trans (by decide)⟩

/-! ## Claim C7 -/

/-- C7: discovery creates an entry only for walked entries that pass every
eligibility rule.  If processing one event changed the collected map, then
the event carried a real non-directory entry, the path passes the
single-file-root restriction, does not begin with the hidden marker,
passes a configured allow-list exactly, classifies as `YAML` or `JSON`
(never `UNSUPPORTED`), and was opened and fully read; the change is
precisely the insertion of that record at its absolute path. -/
theorem c7_only_eligible (config : LocalFSConfig) (st st2 : WalkState) (ev : WalkEvent)
    (h : processEvent config st ev = .ok st2) (hne : st2.localFiles ≠ st.localFiles) :
    ∃ d bytes, ev.entry = some d ∧ d.isDir = false ∧
      ¬(strLen (goExt config.baseDirectory) > 2 ∧ ev.path ≠ goBase config.baseDirectory) ∧
      headIs '.' ev.path = false ∧
      (config.fileFilters = [] ∨ config.fileFilters.contains ev.path = true) ∧
      (ExtractFileType ev.path = .YAML ∨ ExtractFileType ev.path = .JSON) ∧
      (config.fsOpen ev.path).openErr = none ∧
      (∃ bytes2, (config.fsOpen ev.path).readData = .ok bytes2 ∧ bytes2 = bytes) ∧
      st2.localFiles = mapInsert (goAbs config.cwd (goJoin config.baseDirectory ev.path))
        (mkLocalFile ev.path (ExtractFileType ev.path) bytes
          (goAbs config.cwd (goJoin config.baseDirectory ev.path))
          (match (config.fsOpen ev.path).stat with | some t => t | none => config.now)
          (match (config.fsOpen ev.path).statErr with | some e => [e] | none => []))
        st.localFiles := by
  obtain ⟨p, entry, err⟩ := ev
  simp only []
  cases err with
  | some e =>
    rw [processEvent_err config st ⟨p, entry, some e⟩ e rfl] at h
    exact Except.noConfusion h
  | none =>
    cases entry with
    | none =>
      unfold processEvent at h
      simp only [] at h
      injection h with h2
      subst h2
      exact absurd rfl hne
    | some d =>
      unfold processEvent at h
      simp only [] at h
      by_cases hdir : d.isDir = true
      · rw [if_pos hdir] at h
        injection h with h2
        subst h2
        exact absurd rfl hne
      · rw [if_neg hdir] at h
        by_cases hroot : strLen (goExt config.baseDirectory) > 2 ∧ p ≠ goBase config.baseDirectory
        · rw [if_pos hroot] at h
          injection h with h2
          subst h2
          exact absurd rfl hne
        · rw [if_neg hroot] at h
          by_cases hhid : headIs '.' p = true
          · rw [if_pos hhid] at h
            injection h with h2
            subst h2
            exact absurd rfl hne
          · rw [if_neg hhid] at h
            by_cases hfil : config.fileFilters ≠ [] ∧ ¬ config.fileFilters.contains p = true
            · rw [if_pos hfil] at h
              injection h with h2
              subst h2
              exact absurd rfl hne
            · rw [if_neg hfil] at h
              cases hft : ExtractFileType p with
              | UNSUPPORTED =>
                rw [hft] at h
                simp only [] at h
                injection h with h2
                subst h2
                exact absurd rfl hne
              | YAML =>
                cases ho : (config.fsOpen p).openErr with
                | some e =>
                  simp only [hft, ho] at h
                  injection h with h2
                  subst h2
                  exact absurd rfl hne
                | none =>
                  cases hr : (config.fsOpen p).readData with
                  | error e =>
                    simp only [hft, ho, hr] at h
                    injection h with h2
                    subst h2
                    exact absurd rfl hne
                  | ok bytes =>
                    simp only [hft, ho, hr] at h
                    injection h with h2
                    refine ⟨d, bytes, rfl, by simpa using hdir, hroot, by simpa using hhid,
                      or_iff_not_imp_left.mpr (fun h9 => not_not.mp (not_and.mp hfil h9)),
                      Or.inl rfl, rfl, ⟨bytes, rfl, rfl⟩, ?_⟩
                    exact (congrArg WalkState.localFiles h2).symm
              | JSON =>
                cases ho : (config.fsOpen p).openErr with
                | some e =>
                  simp only [hft, ho] at h
                  injection h with h2
                  subst h2
                  exact absurd rfl hne
                | none =>
                  cases hr : (config.fsOpen p).readData with
                  | error e =>
                    simp only [hft, ho, hr] at h
                    injection h with h2
                    subst h2
                    exact absurd rfl hne
                  | ok bytes =>
                    simp only [hft, ho, hr] at h
                    injection h with h2
                    refine ⟨d, bytes, rfl, by simpa using hdir, hroot, by simpa using hhid,
                      or_iff_not_imp_left.mpr (fun h9 => not_not.mp (not_and.mp hfil h9)),
                      Or.inr rfl, rfl, ⟨bytes, rfl, rfl⟩, ?_⟩
                    exact (congrArg WalkState.localFiles h2).symm

/-- Witness for C7: the successful fixture walk event creates exactly the
expected entry, and the theorem recovers every eligibility fact from it. -/
theorem c7_only_eligible_witness :
    processEvent sampleWalkConfig ⟨[], []⟩ (evFile "a.yaml") =
      .ok ⟨[("/base/a.yaml", mkLocalFile "a.yaml" .YAML [1] "/base/a.yaml" 7 [])], []⟩ ∧
    (∃ d bytes, (evFile "a.yaml").entry = some d ∧ d.isDir = false ∧
      ¬(strLen (goExt sampleWalkConfig.baseDirectory) > 2 ∧
        (evFile "a.yaml").path ≠ goBase sampleWalkConfig.baseDirectory) ∧
      headIs '.' (evFile "a.yaml").path = false ∧
      (sampleWalkConfig.fileFilters = [] ∨
        sampleWalkConfig.fileFilters.contains (evFile "a.yaml").path = true) ∧
      (ExtractFileType (evFile "a.yaml").path = .YAML ∨
        ExtractFileType (evFile "a.yaml").path = .JSON) ∧
      (sampleWalkConfig.fsOpen (evFile "a.yaml").path).openErr = none ∧
      (∃ bytes2, (sampleWalkConfig.fsOpen (evFile "a.yaml").path).readData = .ok bytes2 ∧
        bytes2 = bytes) ∧
      (⟨[("/base/a.yaml", mkLocalFile "a.yaml" .YAML [1] "/base/a.yaml" 7 [])], []⟩ :
          WalkState).localFiles =
        mapInsert (goAbs sampleWalkConfig.cwd
            (goJoin sampleWalkConfig.baseDirectory (evFile "a.yaml").path))
          (mkLocalFile (evFile "a.yaml").path (ExtractFileType (evFile "a.yaml").path) bytes
            (goAbs sampleWalkConfig.cwd
              (goJoin sampleWalkConfig.baseDirectory (evFile "a.yaml").path))
            (match (sampleWalkConfig.fsOpen (evFile "a.yaml").path).stat with
             | some t => t
             | none => sampleWalkConfig.now)
            (match (sampleWalkConfig.fsOpen (evFile "a.yaml").path).statErr with
             | some e => [e]
             | none => []))
          (⟨[], []⟩ : WalkState).localFiles) :=
  ⟨by decide,
   c7_only_eligible sampleWalkConfig ⟨[], []⟩
     ⟨[("/base/a.yaml", mkLocalFile "a.yaml" .YAML [1] "/base/a.yaml" 7 [])], []⟩
     (evFile "a.yaml") (by decide) (by decide)⟩

end Rolodex
